import Mathlib

/-!
Verification development for the trade_compass_be decision/reconciliation core.

Shallow embedding of:
* `SignalGenerator.checkSignals` (src/services/signalGenerator.ts) — edge-triggered
  signal polling with a re-entrancy guard;
* `SuggestionGenerator.generateSuggestions` / `determineActionAndConfidence`
  (src/modules/suggestions/services/suggestionGenerator.ts) — grade classification
  and market-eligibility filtering;
* `TradeClosureService.processSignal`
  (src/modules/trading/services/trade-closure.service.ts) — opposite-side position
  closure with profit/duration computation.

Numbers are modelled as `ℚ` (JS numbers used by the code stay in exact range for
the arithmetic at issue), timestamps as `ℤ` milliseconds, nullable fields as
`Option`, and collaborator calls as explicit oracle functions in an environment
record; each external call made by the code is recorded in an effect trace.
-/

namespace TradeCompass

/-- Order / position side, the `'buy' | 'sell'` union type of the source. -/
inductive Side
  | buy
  | sell
deriving DecidableEq

/-- `signalSide === 'buy' ? 'sell' : 'buy'` — the side inversion used both for
the opposing-position query and for the closing order side. -/
def Side.invert : Side → Side
  | .buy => .sell
  | .sell => .buy

/-- Market type union `'spot' | 'futures'`. -/
inductive MarketType
  | spot
  | futures
deriving DecidableEq

/-! ## Signal Poller (`SignalGenerator`, src/services/signalGenerator.ts) -/

/-- `TokenTradingSignal` from src/infra/external/tokenMetrics.ts. -/
structure TokenTradingSignal where
  symbol : String
  signal : Int
  date : String
deriving DecidableEq

/-- The in-memory `lastSignals : Map<string, number>`; `none` is a missing entry. -/
def LastSignals : Type := String → Option Int

/-- `this.lastSignals.set(symbol, currentSignalValue)`. -/
def setSignal (m : LastSignals) (symbol : String) (v : Int) : LastSignals :=
  fun s => if s = symbol then some v else m s

/-- Events emitted by the generator (`buy`, `sell`, `error`). -/
inductive SignalEvent
  | buy (symbol : String) (sig : TokenTradingSignal)
  | sell (symbol : String) (sig : TokenTradingSignal)
  | error
deriving DecidableEq

/-- The edge-trigger decision of `checkSignals` for one asset: the
`if ((last === -1 || last === 0 || last === undefined) && current === 1) … else if …`
chain of the source, returning which event (if any) is emitted. -/
def checkOne (lastSignalValue : Option Int) (currentSignalValue : Int) : Option Side :=
  if (lastSignalValue = some (-1) ∨ lastSignalValue = some 0 ∨ lastSignalValue = none)
      ∧ currentSignalValue = 1 then
    some Side.buy
  else if (lastSignalValue = some 1 ∨ lastSignalValue = some 0 ∨ lastSignalValue = none)
      ∧ currentSignalValue = -1 then
    some Side.sell
  else
    none

/-- One iteration of the `for (const signal of currentSignals)` loop: decide the
event for this asset and unconditionally update the last-value map. -/
def evalSignal (m : LastSignals) (sig : TokenTradingSignal) :
    Option SignalEvent × LastSignals :=
  let ev : Option SignalEvent :=
    match checkOne (m sig.symbol) sig.signal with
    | some Side.buy => some (SignalEvent.buy sig.symbol sig)
    | some Side.sell => some (SignalEvent.sell sig.symbol sig)
    | none => none
  (ev, setSignal m sig.symbol sig.signal)

/-- The whole `for` loop over the fetched signal list, collecting emitted events
and threading the last-value map. -/
def processSignalsLoop : List TokenTradingSignal → LastSignals →
    List SignalEvent × LastSignals
  | [], m => ([], m)
  | sig :: rest, m =>
    let step := evalSignal m sig
    let tail := processSignalsLoop rest step.2
    (step.1.toList ++ tail.1, tail.2)

/-- Mutable state of the `SignalGenerator` relevant to a tick. -/
structure PollerState where
  lastSignals : LastSignals
  isChecking : Bool

/-- Result of one `checkSignals` tick: whether the feed was fetched at all, the
events emitted, and the post-tick state. -/
structure TickResult where
  fetched : Bool
  events : List SignalEvent
  state : PollerState

/-- `checkSignals`: skip entirely when `isChecking` is set; otherwise fetch
(the oracle argument `fetchResult` stands for `tmClient.getTradingSignals()`),
emit `error` when the fetch throws, short-circuit on an empty list, and
otherwise run the per-asset loop. The `finally` clause clears `isChecking`
on every executed path. -/
def checkSignals (fetchResult : Except String (List TokenTradingSignal))
    (st : PollerState) : TickResult :=
  if st.isChecking then
    ⟨false, [], st⟩
  else
    match fetchResult with
    | .error _ => ⟨true, [SignalEvent.error], { st with isChecking := false }⟩
    | .ok currentSignals =>
      if currentSignals.isEmpty then
        ⟨true, [], { st with isChecking := false }⟩
      else
        let res := processSignalsLoop currentSignals st.lastSignals
        ⟨true, res.1, { lastSignals := res.2, isChecking := false }⟩

/-! ## Suggestion Classifier (`SuggestionGenerator`,
src/modules/suggestions/services/suggestionGenerator.ts) -/

/-- `TradingAction` union `'BUY' | 'SELL' | 'HOLD'`. -/
inductive TradingAction
  | BUY
  | SELL
  | HOLD
deriving DecidableEq

/-- JavaScript `Math.round` on the exact rationals arising here:
round half away from zero upward, i.e. `⌊x + 1/2⌋`. -/
def jsRound (x : ℚ) : ℤ := ⌊x + 1 / 2⌋

/-- `Math.round(confidence * 100) / 100` — round to 2 decimal places. -/
def round2 (x : ℚ) : ℚ := (jsRound (x * 100) : ℚ) / 100

/-- `Math.min(Math.max(confidence, 0), 0.99)` — clamp to `[0, 0.99]`. -/
def clampConf (x : ℚ) : ℚ := min (max x 0) (99 / 100)

/-- `determineActionAndConfidence(taGrade, quantGrade, tmGrade)`: average the
three grades, pick BUY / SELL / HOLD by the 59 / 41 thresholds with the
branch-specific confidence formula, then clamp and round the confidence. -/
def determineActionAndConfidence (taGrade quantGrade tmGrade : ℚ) :
    TradingAction × ℚ :=
  let avg := (taGrade + quantGrade + tmGrade) / 3
  let BUY_THRESHOLD : ℚ := 59
  let SELL_THRESHOLD : ℚ := 41
  let p : TradingAction × ℚ :=
    if avg ≥ BUY_THRESHOLD then
      (TradingAction.BUY, (avg - BUY_THRESHOLD) / (100 - BUY_THRESHOLD))
    else if avg ≤ SELL_THRESHOLD then
      (TradingAction.SELL, (SELL_THRESHOLD - avg) / SELL_THRESHOLD)
    else
      let mid := (BUY_THRESHOLD + SELL_THRESHOLD) / 2
      let halfRange := (BUY_THRESHOLD - SELL_THRESHOLD) / 2
      (TradingAction.HOLD, 1 - |avg - mid| / halfRange)
  (p.1, round2 (clampConf p.2))

/-- Market precision metadata (`MarketPrecision` in core/domainTypes). -/
structure MarketPrecision where
  amount : Option ℚ
  price : Option ℚ
  cost : Option ℚ
deriving DecidableEq

/-- One min/max pair inside `MarketLimits`. -/
structure MarketLimitRange where
  min : Option ℚ
  max : Option ℚ
deriving DecidableEq

/-- Market limit metadata (`MarketLimits` in core/domainTypes). -/
structure MarketLimits where
  amount : Option MarketLimitRange
  price : Option MarketLimitRange
  cost : Option MarketLimitRange
  market : Option MarketLimitRange
deriving DecidableEq

/-- `MarketInfo` from core/domainTypes. -/
structure MarketInfo where
  symbol : String
  type : MarketType
  precision : MarketPrecision
  limits : MarketLimits
  contractSize : Option ℚ
deriving DecidableEq

/-- `TokenMetricsTraderGrade` from core/domainTypes: `symbol` is the
human-readable token name, `symbol_id` the ticker. -/
structure TokenMetricsTraderGrade where
  symbol : String
  symbol_id : String
  date : String
  ta_grade : ℚ
  quant_grade : ℚ
  tm_grade : ℚ
deriving DecidableEq

/-- `TradeSuggestionDetails` from core/domainTypes. -/
structure TradeSuggestionDetails where
  ta_grade : ℚ
  quant_grade : ℚ
  tm_grade : ℚ
deriving DecidableEq

/-- `TradeSuggestion` from core/domainTypes. -/
structure TradeSuggestion where
  symbol_id : String
  symbol : String
  spotMarket : Option String
  futuresMarket : Option String
  spotMarketInfo : Option MarketInfo
  futuresMarketInfo : Option MarketInfo
  action : TradingAction
  confidence : ℚ
  details : TradeSuggestionDetails
deriving DecidableEq

/-- JavaScript `s.toUpperCase()` (ASCII range, which covers the ticker symbols
handled by the code). -/
def jsToUpper (s : String) : String := ⟨s.data.map Char.toUpper⟩

/-- JavaScript `s.toLowerCase()` (ASCII range). -/
def jsToLower (s : String) : String := ⟨s.data.map Char.toLower⟩

/-- Character-list prefix test used to model `String.prototype.includes`. -/
def charsStartWith : List Char → List Char → Bool
  | [], _ => true
  | _ :: _, [] => false
  | a :: as, b :: bs => a == b && charsStartWith as bs

/-- Substring occurrence on character lists. -/
def charsContain (needle : List Char) : List Char → Bool
  | [] => needle.isEmpty
  | c :: t => charsStartWith needle (c :: t) || charsContain needle t

/-- JavaScript `hay.includes(needle)`. -/
def jsIncludes (hay needle : String) : Bool :=
  charsContain needle.toList hay.toList

/-- The two `Record<string, MarketInfo>` maps held by the generator. -/
structure SuggestionEnv where
  spotMarketInfoMap : String → Option MarketInfo
  futuresMarketInfoMap : String → Option MarketInfo

/-- Loop state of `generateSuggestions`: the accumulator arrays
`suggestions`, `skippedSymbols` and the `seenMarkets` set. -/
structure GenState where
  suggestions : List TradeSuggestion
  skippedSymbols : List String
  seenMarkets : List String

/-- The suggestion object pushed for a surviving grade. -/
def mkSuggestion (env : SuggestionEnv) (grade : TokenMetricsTraderGrade) :
    TradeSuggestion :=
  let baseSymbolUpper := jsToUpper grade.symbol_id
  let spotMarketSymbol := baseSymbolUpper ++ "/USDC"
  let futuresMarketSymbol := baseSymbolUpper ++ "/USDC:USDC"
  let spotInfo := env.spotMarketInfoMap spotMarketSymbol
  let futuresInfo := env.futuresMarketInfoMap futuresMarketSymbol
  let ac := determineActionAndConfidence grade.ta_grade grade.quant_grade grade.tm_grade
  { symbol_id := grade.symbol_id
    symbol := grade.symbol
    spotMarket := if spotInfo.isSome then some spotMarketSymbol else none
    futuresMarket := if futuresInfo.isSome then some futuresMarketSymbol else none
    spotMarketInfo := spotInfo
    futuresMarketInfo := futuresInfo
    action := ac.1
    confidence := ac.2
    details := ⟨grade.ta_grade, grade.quant_grade, grade.tm_grade⟩ }

/-- One iteration of the `for (const grade of traderGrades)` loop of
`generateSuggestions`: the binance-peg filter, the market lookups, the
SELL-without-derivatives skip, the spot-symbol deduplication guard, and the
push of the surviving suggestion. -/
def processGrade (env : SuggestionEnv) (st : GenState)
    (grade : TokenMetricsTraderGrade) : GenState :=
  let baseSymbolUpper := jsToUpper grade.symbol_id
  if jsIncludes (jsToLower grade.symbol) "binance-peg" then
    { st with skippedSymbols := st.skippedSymbols ++ [baseSymbolUpper] }
  else
    let spotMarketSymbol := baseSymbolUpper ++ "/USDC"
    let futuresMarketSymbol := baseSymbolUpper ++ "/USDC:USDC"
    let spotInfo := env.spotMarketInfoMap spotMarketSymbol
    let futuresInfo := env.futuresMarketInfoMap futuresMarketSymbol
    let hasSpotMarket := spotInfo.isSome
    let hasFuturesMarket := futuresInfo.isSome
    if hasSpotMarket || hasFuturesMarket then
      let ac := determineActionAndConfidence grade.ta_grade grade.quant_grade grade.tm_grade
      if ac.1 = TradingAction.SELL ∧ hasFuturesMarket = false then
        { st with skippedSymbols := st.skippedSymbols ++ [baseSymbolUpper] }
      else if spotMarketSymbol ∈ st.seenMarkets then
        { st with skippedSymbols := st.skippedSymbols ++ [baseSymbolUpper] }
      else
        { st with
          seenMarkets :=
            if hasSpotMarket then st.seenMarkets ++ [spotMarketSymbol]
            else st.seenMarkets
          suggestions := st.suggestions ++ [mkSuggestion env grade] }
    else
      { st with skippedSymbols := st.skippedSymbols ++ [baseSymbolUpper] }

/-- `generateSuggestions` over an already-fetched grade list (the
`getTraderGrades` result is the oracle input). -/
def generateSuggestions (env : SuggestionEnv)
    (traderGrades : List TokenMetricsTraderGrade) : GenState :=
  traderGrades.foldl (processGrade env) ⟨[], [], []⟩

/-! ## Position Reconciler (`TradeClosureService`,
src/modules/trading/services/trade-closure.service.ts) -/

/-- The `User` record fields consumed by the closure path (`apiKey` /
`apiSecret` are non-null TEXT columns; the code treats the empty string as
missing via JS falsiness). -/
structure User where
  id : String
  apiKey : String
  apiSecret : String
deriving DecidableEq

/-- The `tcState` lifecycle column written by `TradeRepository`:
`'OPEN'`, set to `'COMPLETED'` by `updateTradeClosure`. -/
inductive TradeStatus
  | OPEN
  | COMPLETED
deriving DecidableEq

/-- A `Trade` ledger row: the prisma `Trade` columns read or written by the
closure path (including the `tcState` lifecycle column and the closure columns
written by `TradeRepository.updateTradeClosure`). Timestamps are epoch
milliseconds. -/
structure Trade where
  tradeId : Nat
  userId : String
  orderId : String
  timestamp : Int
  symbol : String
  side : Side
  price : Option ℚ
  amount : ℚ
  cost : Option ℚ
  filled : Option ℚ
  marketType : MarketType
  tcState : TradeStatus
  closeOrderId : Option String
  closeTimestamp : Option Int
  closePrice : Option ℚ
  closeCost : Option ℚ
  profit : Option ℚ
  durationMs : Option Int
deriving DecidableEq

/-- The fields of a ccxt `Order` read by the closure path. -/
structure CcxtOrder where
  id : String
  timestamp : Option Int
  average : Option ℚ
  cost : Option ℚ
deriving DecidableEq

/-- The ccxt error classes distinguished by the `catch` block. -/
inductive CcxtErrorKind
  | insufficientFunds
  | invalidOrder
  | authenticationError
  | networkError
  | exchangeNotAvailable
  | other
deriving DecidableEq

/-- The `params` record passed to `placeMarketOrder` (`reduceOnly` for
futures, empty for spot). -/
structure OrderParams where
  reduceOnly : Bool
deriving DecidableEq

/-- `params.reduceOnly = true` exactly for futures positions. -/
def closeParams : MarketType → OrderParams
  | MarketType.futures => ⟨true⟩
  | MarketType.spot => ⟨false⟩

/-- The closure fields passed to `tradeRepository.updateTradeClosure`. -/
structure ClosureData where
  closeOrderId : String
  closeTimestamp : Int
  closePrice : Option ℚ
  closeCost : Option ℚ
  profit : Option ℚ
  durationMs : Int
deriving DecidableEq

/-- Collaborator oracles consumed by `processSignal`: the trade repository
query, the user lookup, the exchange gateway, the closure update (its outcome
only affects logging, both success and failure being caught by the inner
`catch`), and the wall clock used when the order reports no timestamp. -/
structure ClosureEnv where
  findOpenTradesBySymbolAndSide : String → Side → Except String (List Trade)
  findById : String → Option User
  placeMarketOrder : String → String → Bool → String → Side → ℚ → MarketType →
    OrderParams → Except CcxtErrorKind CcxtOrder
  updateTradeClosure : Nat → ClosureData → Except String Unit
  now : Int

/-- External calls made by the closure path, in order: an exchange order
submission (recorded whether or not the gateway then fails) and a persisted
closure update. -/
inductive Effect
  | placedOrder (tradeId : Nat) (symbol : String) (side : Side) (amount : ℚ)
      (marketType : MarketType) (params : OrderParams)
  | updatedClosure (tradeId : Nat) (data : ClosureData)
deriving DecidableEq

/-- The trade id a recorded effect refers to. -/
def effectTradeId : Effect → Nat
  | .placedOrder tradeId _ _ _ _ _ => tradeId
  | .updatedClosure tradeId _ => tradeId

/-- Body of the `for (const tradeToClose of openTradesToClose)` loop: credential
resolution, quantity validation, order submission (with the inner `catch`
swallowing gateway errors), profit/duration computation, and the closure
update. Returns the effect trace this iteration produces. -/
def processOneTrade (env : ClosureEnv) (tradeToClose : Trade) : List Effect :=
  match env.findById tradeToClose.userId with
  | none => []
  | some user =>
    if user.apiKey.isEmpty || user.apiSecret.isEmpty then []
    else
      let closingSide := tradeToClose.side.invert
      let marketType := tradeToClose.marketType
      let params := closeParams marketType
      match tradeToClose.filled with
      | none => []
      | some closingAmount =>
        if closingAmount ≤ 0 then []
        else
          Effect.placedOrder tradeToClose.tradeId tradeToClose.symbol closingSide
              closingAmount marketType params ::
            match env.placeMarketOrder user.apiKey user.apiSecret false
                tradeToClose.symbol closingSide closingAmount marketType params with
            | .error _ => []
            | .ok closingOrder =>
              let closeTimestamp := closingOrder.timestamp.getD env.now
              let durationMs := closeTimestamp - tradeToClose.timestamp
              let profit : Option ℚ :=
                match tradeToClose.cost, closingOrder.cost with
                | some originalCost, some closeCost =>
                  some (if tradeToClose.side = Side.buy then closeCost - originalCost
                        else originalCost - closeCost)
                | _, _ => none
              [Effect.updatedClosure tradeToClose.tradeId
                ⟨closingOrder.id, closeTimestamp, closingOrder.average,
                 closingOrder.cost, profit, durationMs⟩]

/-- `TradeClosureService.processSignal`: query open opposing trades (the outer
`catch` turns a repository failure into a logged no-op) and run the closure
loop sequentially over the matches. The `Except` result models the returned
promise: `.ok` is normal resolution. -/
def processSignal (env : ClosureEnv) (signalSide : Side) (symbol : String) :
    Except String (List Effect) :=
  let oppositeSide := signalSide.invert
  match env.findOpenTradesBySymbolAndSide symbol oppositeSide with
  | .error _ => Except.ok []
  | .ok openTradesToClose =>
    Except.ok (openTradesToClose.flatMap (processOneTrade env))

/-- The prisma `filled: { gt: 0 }` condition of the open-trades query: a null
`filled` never matches. -/
def filledPositive (t : Trade) : Bool :=
  match t.filled with
  | some f => decide (0 < f)
  | none => false

/-- `TradeRepository.findOpenTradesBySymbolAndSide(symbol, side)`: the prisma
`findMany` whose `where` clause matches the symbol, the original side,
`tcState: 'OPEN'`, and `filled: { gt: 0 }`. -/
def storeFindOpen (store : List Trade) (symbol : String) (side : Side) :
    List Trade :=
  store.filter fun t =>
    decide (t.symbol = symbol) && decide (t.side = side) &&
      decide (t.tcState = TradeStatus.OPEN) && filledPositive t

/-- `TradeRepository.updateTradeClosure(tradeId, closureData)` applied to the
matched row: the prisma `update` sets `tcState: 'COMPLETED'` and records the
closing order id, timestamp, average price, cost, profit and duration. -/
def applyClosure (t : Trade) (d : ClosureData) : Trade :=
  { t with
    tcState := TradeStatus.COMPLETED
    closeOrderId := some d.closeOrderId
    closeTimestamp := some d.closeTimestamp
    closePrice := d.closePrice
    closeCost := d.closeCost
    profit := d.profit
    durationMs := some d.durationMs }

/-- How one recorded effect acts on one stored position: order placements do
not touch the store; a closure update rewrites the position with the matching
id. -/
def applyTradeStep (e : Effect) (t : Trade) : Trade :=
  match e with
  | .placedOrder _ _ _ _ _ _ => t
  | .updatedClosure tradeId d =>
    if t.tradeId = tradeId then applyClosure t d else t

/-- One effect applied to the whole store. -/
def applyEffect (store : List Trade) (e : Effect) : List Trade :=
  store.map (applyTradeStep e)

/-- An effect trace applied to the store, in order. -/
def applyEffects (store : List Trade) (effs : List Effect) : List Trade :=
  effs.foldl applyEffect store

/-- An effect trace applied to one stored position. -/
def applyTradeEffects (effs : List Effect) (t : Trade) : Trade :=
  effs.foldl (fun acc e => applyTradeStep e acc) t

/-! ### Claims C1 and C8 -/

/-- C1: in each check-cycle evaluation of an asset, a buy event is emitted iff
the previous recorded value is -1, 0, or missing and the new value is 1; a sell
event is emitted iff the previous recorded value is 1, 0, or missing and the new
value is -1; no event is emitted on any other transition; and after the
evaluation the last-value map entry for that asset holds the new value whether
or not an event fired. -/
theorem signalPoller_edge_trigger_C1 (m : LastSignals) (sig : TokenTradingSignal) :
    ((evalSignal m sig).1 = some (SignalEvent.buy sig.symbol sig) ↔
      ((m sig.symbol = some (-1) ∨ m sig.symbol = some 0 ∨ m sig.symbol = none)
        ∧ sig.signal = 1)) ∧
    ((evalSignal m sig).1 = some (SignalEvent.sell sig.symbol sig) ↔
      ((m sig.symbol = some 1 ∨ m sig.symbol = some 0 ∨ m sig.symbol = none)
        ∧ sig.signal = -1)) ∧
    ((evalSignal m sig).1 = none ↔
      (¬((m sig.symbol = some (-1) ∨ m sig.symbol = some 0 ∨ m sig.symbol = none)
          ∧ sig.signal = 1) ∧
       ¬((m sig.symbol = some 1 ∨ m sig.symbol = some 0 ∨ m sig.symbol = none)
          ∧ sig.signal = -1))) ∧
    (evalSignal m sig).2 sig.symbol = some sig.signal := by
  unfold evalSignal checkOne setSignal
  split_ifs with h1 h2 <;> simp_all

/-- C8: a tick that begins while `isChecking` is set is skipped entirely — no
fetch, no events, state (last-signal map and flag) unchanged; and a tick that
does run ends with `isChecking` cleared whether the fetch succeeds, fails, or
returns nothing. -/
theorem signalPoller_reentrancy_guard_C8
    (fetchResult : Except String (List TokenTradingSignal)) (m : LastSignals) :
    checkSignals fetchResult ⟨m, true⟩ = ⟨false, [], ⟨m, true⟩⟩ ∧
    (checkSignals fetchResult ⟨m, false⟩).state.isChecking = false := by
  constructor
  · rfl
  · unfold checkSignals
    cases fetchResult with
    | error e => rfl
    | ok currentSignals =>
      by_cases h : currentSignals.isEmpty <;> simp [h]

/-! ### Claim C3 -/

lemma clampConf_nonneg (x : ℚ) : 0 ≤ clampConf x :=
  le_min (le_max_right x 0) (by norm_num)

lemma clampConf_le (x : ℚ) : clampConf x ≤ 99 / 100 :=
  min_le_right _ _

lemma round2_clampConf_nonneg (x : ℚ) : 0 ≤ round2 (clampConf x) := by
  have h1 : 0 ≤ clampConf x := clampConf_nonneg x
  have hf : (0 : ℤ) ≤ ⌊clampConf x * 100 + 1 / 2⌋ := by
    apply Int.le_floor.mpr
    push_cast
    nlinarith
  unfold round2 jsRound
  positivity

lemma round2_clampConf_le (x : ℚ) : round2 (clampConf x) ≤ 99 / 100 := by
  have h2 : clampConf x ≤ 99 / 100 := clampConf_le x
  have hf : ⌊clampConf x * 100 + 1 / 2⌋ ≤ 99 := by
    have hlt : ⌊clampConf x * 100 + 1 / 2⌋ < 100 := by
      apply Int.floor_lt.mpr
      push_cast
      nlinarith
    omega
  unfold round2 jsRound
  have hcast : ((⌊clampConf x * 100 + 1 / 2⌋ : ℤ) : ℚ) ≤ 99 := by exact_mod_cast hf
  linarith

lemma round2_clampConf_hundredth (x : ℚ) :
    ∃ k : ℤ, round2 (clampConf x) = (k : ℚ) / 100 :=
  ⟨jsRound (clampConf x * 100), rfl⟩

lemma determine_confidence_shape (ta qu tm : ℚ) :
    ∃ c : ℚ, (determineActionAndConfidence ta qu tm).2 = round2 (clampConf c) := by
  simp only [determineActionAndConfidence]
  split_ifs <;> exact ⟨_, rfl⟩

/-- C3: over grades in `[0, 100]` with `avg` their mean, the classifier returns
BUY with confidence `(avg − 59)/(100 − 59)` when `avg ≥ 59`, SELL with
confidence `(41 − avg)/41` when `avg ≤ 41`, HOLD with confidence
`1 − |avg − 50|/9` otherwise — each confidence clamped to `[0, 0.99]` and
rounded to 2 decimal places — and the returned confidence always lies in
`[0, 0.99]` and is an integer number of hundredths. -/
theorem classifier_action_confidence_C3 (ta qu tm : ℚ)
    (h0a : 0 ≤ ta) (h1a : ta ≤ 100) (h0b : 0 ≤ qu) (h1b : qu ≤ 100)
    (h0c : 0 ≤ tm) (h1c : tm ≤ 100) :
    (59 ≤ (ta + qu + tm) / 3 →
      determineActionAndConfidence ta qu tm =
        (TradingAction.BUY,
          round2 (clampConf (((ta + qu + tm) / 3 - 59) / (100 - 59))))) ∧
    ((ta + qu + tm) / 3 ≤ 41 →
      determineActionAndConfidence ta qu tm =
        (TradingAction.SELL,
          round2 (clampConf ((41 - (ta + qu + tm) / 3) / 41)))) ∧
    (41 < (ta + qu + tm) / 3 → (ta + qu + tm) / 3 < 59 →
      determineActionAndConfidence ta qu tm =
        (TradingAction.HOLD,
          round2 (clampConf (1 - |(ta + qu + tm) / 3 - 50| / 9)))) ∧
    0 ≤ (determineActionAndConfidence ta qu tm).2 ∧
    (determineActionAndConfidence ta qu tm).2 ≤ 99 / 100 ∧
    ∃ k : ℤ, (determineActionAndConfidence ta qu tm).2 = (k : ℚ) / 100 := by
  obtain ⟨c, hc⟩ := determine_confidence_shape ta qu tm
  refine ⟨?_, ?_, ?_, ?_, ?_, ?_⟩
  · intro h
    simp only [determineActionAndConfidence]
    split_ifs <;> first | (exfalso; linarith) | norm_num
  · intro h
    simp only [determineActionAndConfidence]
    split_ifs <;> first | (exfalso; linarith) | norm_num
  · intro hlo hhi
    simp only [determineActionAndConfidence]
    split_ifs <;> first | (exfalso; linarith) | norm_num
  · rw [hc]; exact round2_clampConf_nonneg c
  · rw [hc]; exact round2_clampConf_le c
  · rw [hc]; exact round2_clampConf_hundredth c

/-- Witness for C3 at grades (80, 70, 90): average 80 triggers the BUY branch
and the confidence evaluates to 0.51. -/
theorem classifier_action_confidence_C3_witness :
    determineActionAndConfidence 80 70 90 =
      (TradingAction.BUY,
        round2 (clampConf ((((80 : ℚ) + 70 + 90) / 3 - 59) / (100 - 59)))) ∧
    determineActionAndConfidence 80 70 90 = (TradingAction.BUY, 51 / 100) := by
  have h := (classifier_action_confidence_C3 80 70 90 (by norm_num) (by norm_num)
    (by norm_num) (by norm_num) (by norm_num) (by norm_num)).1 (by norm_num)
  refine ⟨h, h.trans ?_⟩
  norm_num [clampConf, round2, jsRound]

/-! ### Claims C4 and C10 -/

lemma processGrade_skipped_mono (env : SuggestionEnv) (st : GenState)
    (g : TokenMetricsTraderGrade) :
    ∀ x ∈ st.skippedSymbols, x ∈ (processGrade env st g).skippedSymbols := by
  intro x hx
  simp only [processGrade]
  split_ifs <;> simp [hx]

lemma foldl_skipped_mono (env : SuggestionEnv) (gs : List TokenMetricsTraderGrade)
    (st : GenState) :
    ∀ x ∈ st.skippedSymbols,
      x ∈ (gs.foldl (processGrade env) st).skippedSymbols := by
  induction gs generalizing st with
  | nil => intro x hx; exact hx
  | cons g rest ih =>
    intro x hx
    exact ih (processGrade env st g) x (processGrade_skipped_mono env st g x hx)

lemma processGrade_adds_skip (env : SuggestionEnv) (st : GenState)
    (g : TokenMetricsTraderGrade)
    (h : jsIncludes (jsToLower g.symbol) "binance-peg" = true ∨
      ((determineActionAndConfidence g.ta_grade g.quant_grade g.tm_grade).1 =
          TradingAction.SELL ∧
        env.futuresMarketInfoMap (jsToUpper g.symbol_id ++ "/USDC:USDC") = none)) :
    jsToUpper g.symbol_id ∈ (processGrade env st g).skippedSymbols := by
  simp only [processGrade]
  split_ifs with h1 h2 h3 h4 <;>
    first
      | (simp; done)
      | (rcases h with hpeg | ⟨hsell, hnone⟩
         · exact absurd hpeg h1
         · exact absurd ⟨hsell, by simp [hnone]⟩ h3)

lemma foldl_adds_skip (env : SuggestionEnv) (gs : List TokenMetricsTraderGrade)
    (g : TokenMetricsTraderGrade) (hg : g ∈ gs)
    (h : jsIncludes (jsToLower g.symbol) "binance-peg" = true ∨
      ((determineActionAndConfidence g.ta_grade g.quant_grade g.tm_grade).1 =
          TradingAction.SELL ∧
        env.futuresMarketInfoMap (jsToUpper g.symbol_id ++ "/USDC:USDC") = none)) :
    ∀ st : GenState,
      jsToUpper g.symbol_id ∈ (gs.foldl (processGrade env) st).skippedSymbols := by
  induction gs with
  | nil => cases hg
  | cons a rest ih =>
    intro st
    rcases List.mem_cons.mp hg with rfl | hmem
    · exact foldl_skipped_mono env rest (processGrade env st g) _
        (processGrade_adds_skip env st g h)
    · exact ih hmem (processGrade env st a)

lemma processGrade_suggestions_mem (env : SuggestionEnv) (st : GenState)
    (g : TokenMetricsTraderGrade) (s : TradeSuggestion)
    (hs : s ∈ (processGrade env st g).suggestions) :
    s ∈ st.suggestions ∨
      (s = mkSuggestion env g ∧
        jsIncludes (jsToLower g.symbol) "binance-peg" = false ∧
        ¬((determineActionAndConfidence g.ta_grade g.quant_grade g.tm_grade).1 =
            TradingAction.SELL ∧
          (env.futuresMarketInfoMap
              (jsToUpper g.symbol_id ++ "/USDC:USDC")).isSome = false)) := by
  simp only [processGrade] at hs
  split_ifs at hs with h1 h2 h3 h4 <;>
    first
      | exact Or.inl hs
      | (rcases List.mem_append.mp hs with hmem | hmem
         · exact Or.inl hmem
         · exact Or.inr ⟨List.mem_singleton.mp hmem, by simpa using h1, h3⟩)

lemma foldl_suggestions_mem (env : SuggestionEnv) :
    ∀ (gs : List TokenMetricsTraderGrade) (st : GenState) (s : TradeSuggestion),
      s ∈ (gs.foldl (processGrade env) st).suggestions →
      s ∈ st.suggestions ∨
        ∃ g, g ∈ gs ∧ s = mkSuggestion env g ∧
          jsIncludes (jsToLower g.symbol) "binance-peg" = false ∧
          ¬((determineActionAndConfidence g.ta_grade g.quant_grade g.tm_grade).1 =
              TradingAction.SELL ∧
            (env.futuresMarketInfoMap
                (jsToUpper g.symbol_id ++ "/USDC:USDC")).isSome = false) := by
  intro gs
  induction gs with
  | nil => intro st s hs; exact Or.inl hs
  | cons a rest ih =>
    intro st s hs
    rcases ih (processGrade env st a) s hs with h | h
    · rcases processGrade_suggestions_mem env st a s h with h2 | h2
      · exact Or.inl h2
      · exact Or.inr ⟨a, List.mem_cons_self a rest, h2⟩
    · obtain ⟨g, hg, hrest⟩ := h
      exact Or.inr ⟨g, List.mem_cons_of_mem a hg, hrest⟩

lemma generate_suggestions_mem (env : SuggestionEnv)
    (gs : List TokenMetricsTraderGrade) (s : TradeSuggestion)
    (hs : s ∈ (generateSuggestions env gs).suggestions) :
    ∃ g, g ∈ gs ∧ s = mkSuggestion env g ∧
      jsIncludes (jsToLower g.symbol) "binance-peg" = false ∧
      ¬((determineActionAndConfidence g.ta_grade g.quant_grade g.tm_grade).1 =
          TradingAction.SELL ∧
        (env.futuresMarketInfoMap
            (jsToUpper g.symbol_id ++ "/USDC:USDC")).isSome = false) := by
  rcases foldl_suggestions_mem env gs ⟨[], [], []⟩ s hs with h | h
  · simp at h
  · exact h

/-- C4: `generateSuggestions` never returns a SELL suggestion for an asset
without a derivatives market — a SELL suggestion always carries an existing
futures-market entry — and a grade classified SELL whose futures symbol has no
market entry ends up in the skipped list. -/
theorem suggestion_sell_requires_derivatives_C4 (env : SuggestionEnv)
    (traderGrades : List TokenMetricsTraderGrade) :
    (∀ s ∈ (generateSuggestions env traderGrades).suggestions,
      s.action = TradingAction.SELL →
        (env.futuresMarketInfoMap (jsToUpper s.symbol_id ++ "/USDC:USDC")).isSome
            = true ∧
        s.futuresMarket = some (jsToUpper s.symbol_id ++ "/USDC:USDC")) ∧
    (∀ g ∈ traderGrades,
      (determineActionAndConfidence g.ta_grade g.quant_grade g.tm_grade).1 =
          TradingAction.SELL →
      env.futuresMarketInfoMap (jsToUpper g.symbol_id ++ "/USDC:USDC") = none →
        jsToUpper g.symbol_id ∈
          (generateSuggestions env traderGrades).skippedSymbols) := by
  constructor
  · intro s hs hsell
    obtain ⟨g, _, rfl, _, hguard⟩ := generate_suggestions_mem env traderGrades s hs
    have haction : (determineActionAndConfidence g.ta_grade g.quant_grade
        g.tm_grade).1 = TradingAction.SELL := by
      simpa [mkSuggestion] using hsell
    have hfut : (env.futuresMarketInfoMap
        (jsToUpper g.symbol_id ++ "/USDC:USDC")).isSome = true := by
      by_contra hcon
      exact hguard ⟨haction, by simpa using hcon⟩
    constructor
    · simpa [mkSuggestion] using hfut
    · simp [mkSuggestion, hfut]
  · intro g hg hsell hnone
    exact foldl_adds_skip env traderGrades g hg (Or.inr ⟨hsell, hnone⟩) ⟨[], [], []⟩

/-- C10: no suggestion is ever emitted for a grade whose human-readable symbol
name contains "binance-peg" (case-insensitively); such a grade's ticker is
recorded in the skipped list instead. -/
theorem suggestion_binance_peg_skip_C10 (env : SuggestionEnv)
    (traderGrades : List TokenMetricsTraderGrade) :
    (∀ s ∈ (generateSuggestions env traderGrades).suggestions,
      jsIncludes (jsToLower s.symbol) "binance-peg" = false) ∧
    (∀ g ∈ traderGrades, jsIncludes (jsToLower g.symbol) "binance-peg" = true →
      jsToUpper g.symbol_id ∈
        (generateSuggestions env traderGrades).skippedSymbols) := by
  constructor
  · intro s hs
    obtain ⟨g, _, rfl, hpeg, _⟩ := generate_suggestions_mem env traderGrades s hs
    simpa [mkSuggestion] using hpeg
  · intro g hg hpeg
    exact foldl_adds_skip env traderGrades g hg (Or.inl hpeg) ⟨[], [], []⟩

/-- Witness for C1: with an empty last-value map, a polled value of 1 for
"BTC" emits a buy event. -/
theorem signalPoller_edge_trigger_C1_witness :
    (evalSignal (fun _ => none) ⟨"BTC", 1, "2025-01-01"⟩).1 =
      some (SignalEvent.buy "BTC" ⟨"BTC", 1, "2025-01-01"⟩) :=
  (signalPoller_edge_trigger_C1 (fun _ => none) ⟨"BTC", 1, "2025-01-01"⟩).1.mpr
    ⟨Or.inr (Or.inr rfl), rfl⟩

/-- Witness for C4: a grade classified SELL (average 20) whose asset has no
futures-market entry is recorded as skipped. -/
theorem suggestion_sell_requires_derivatives_C4_witness :
    jsToUpper "aaa" ∈
      (generateSuggestions ⟨fun _ => none, fun _ => none⟩
        [⟨"TestCoin", "aaa", "2025-01-01", 20, 30, 10⟩]).skippedSymbols := by
  refine (suggestion_sell_requires_derivatives_C4 ⟨fun _ => none, fun _ => none⟩
      [⟨"TestCoin", "aaa", "2025-01-01", 20, 30, 10⟩]).2
    ⟨"TestCoin", "aaa", "2025-01-01", 20, 30, 10⟩ (by simp) ?_ rfl
  norm_num [determineActionAndConfidence]

/-- Witness for C10: a grade whose symbol name contains "Binance-Peg" is
recorded as skipped. -/
theorem suggestion_binance_peg_skip_C10_witness :
    jsToUpper "busd" ∈
      (generateSuggestions ⟨fun _ => none, fun _ => none⟩
        [⟨"Binance-Peg BUSD", "busd", "2025-01-01", 50, 50, 50⟩]).skippedSymbols :=
  (suggestion_binance_peg_skip_C10 ⟨fun _ => none, fun _ => none⟩
      [⟨"Binance-Peg BUSD", "busd", "2025-01-01", 50, 50, 50⟩]).2
    ⟨"Binance-Peg BUSD", "busd", "2025-01-01", 50, 50, 50⟩ (by simp) (by decide)

/-! ### Claims C2 and C5 -/

/-- C2: when a matched position is closed successfully, the persisted profit is
`closing cost − original cost` for an original buy position and
`original cost − closing cost` for an original sell position when both costs
are known, and `null` when either cost is missing — the closure update being
persisted in every case. -/
theorem tradeClosure_profit_C2 (env : ClosureEnv) (t : Trade) (user : User)
    (closingAmount : ℚ) (closingOrder : CcxtOrder)
    (huser : env.findById t.userId = some user)
    (hkey : user.apiKey.isEmpty = false)
    (hsec : user.apiSecret.isEmpty = false)
    (hfill : t.filled = some closingAmount)
    (hpos : 0 < closingAmount)
    (horder : env.placeMarketOrder user.apiKey user.apiSecret false t.symbol
      t.side.invert closingAmount t.marketType (closeParams t.marketType) =
        Except.ok closingOrder) :
    ∃ d : ClosureData,
      processOneTrade env t =
        [Effect.placedOrder t.tradeId t.symbol t.side.invert closingAmount
            t.marketType (closeParams t.marketType),
         Effect.updatedClosure t.tradeId d] ∧
      (∀ originalCost closeCost : ℚ, t.cost = some originalCost →
        closingOrder.cost = some closeCost →
        (t.side = Side.buy → d.profit = some (closeCost - originalCost)) ∧
        (t.side = Side.sell → d.profit = some (originalCost - closeCost))) ∧
      ((t.cost = none ∨ closingOrder.cost = none) → d.profit = none) := by
  have hneg : ¬closingAmount ≤ 0 := not_le.mpr hpos
  refine ⟨⟨closingOrder.id, closingOrder.timestamp.getD env.now,
      closingOrder.average, closingOrder.cost,
      (match t.cost, closingOrder.cost with
        | some originalCost, some closeCost =>
          some (if t.side = Side.buy then closeCost - originalCost
                else originalCost - closeCost)
        | _, _ => none),
      closingOrder.timestamp.getD env.now - t.timestamp⟩, ?_, ?_, ?_⟩
  · simp [processOneTrade, huser, hkey, hsec, hfill, hneg, horder]
  · intro originalCost closeCost hoc hcc
    constructor <;> intro hside <;> simp [hoc, hcc, hside]
  · intro hmiss
    rcases hmiss with h | h
    · simp [h]
    · cases t.cost <;> simp [h]

/-- Witness for C2: closing a sell position with original cost 3000 via an
order costing 2980 records profit 20, persisted with the closure. -/
theorem tradeClosure_profit_C2_witness :
    ∃ d : ClosureData,
      processOneTrade
          ⟨fun _ _ => Except.ok [], fun _ => some ⟨"u1", "key", "secret"⟩,
           fun _ _ _ _ _ _ _ _ =>
             Except.ok ⟨"ord2", some 2000, some 149, some 2980⟩,
           fun _ _ => Except.ok (), 5000⟩
          ⟨7, "u1", "ord1", 1000, "BTC/USDC", Side.sell, some 150, 20, some 3000,
           some 20, MarketType.futures, TradeStatus.OPEN, none, none, none, none,
           none, none⟩ =
        [Effect.placedOrder 7 "BTC/USDC" (Side.sell).invert 20 MarketType.futures
            (closeParams MarketType.futures),
         Effect.updatedClosure 7 d] ∧
      (∀ originalCost closeCost : ℚ, some (3000 : ℚ) = some originalCost →
        some (2980 : ℚ) = some closeCost →
        (Side.sell = Side.buy → d.profit = some (closeCost - originalCost)) ∧
        (Side.sell = Side.sell → d.profit = some (originalCost - closeCost))) ∧
      ((some (3000 : ℚ) = none ∨ some (2980 : ℚ) = none) → d.profit = none) := by
  exact tradeClosure_profit_C2 _ _ ⟨"u1", "key", "secret"⟩ 20
    ⟨"ord2", some 2000, some 149, some 2980⟩ rfl rfl rfl rfl (by norm_num) rfl

/-- C5: when the exchange gateway raises while closing a matched position, the
trace for that position is the order attempt alone — no closure update is
recorded, applying the trace leaves every stored position unchanged (the
position stays OPEN with all fields intact) — and the loop goes on to the
remaining positions of the batch. -/
theorem tradeClosure_exchange_error_C5 (env : ClosureEnv) (t : Trade)
    (user : User) (closingAmount : ℚ) (e : CcxtErrorKind)
    (huser : env.findById t.userId = some user)
    (hkey : user.apiKey.isEmpty = false)
    (hsec : user.apiSecret.isEmpty = false)
    (hfill : t.filled = some closingAmount)
    (hpos : 0 < closingAmount)
    (horder : env.placeMarketOrder user.apiKey user.apiSecret false t.symbol
      t.side.invert closingAmount t.marketType (closeParams t.marketType) =
        Except.error e) :
    processOneTrade env t =
      [Effect.placedOrder t.tradeId t.symbol t.side.invert closingAmount
        t.marketType (closeParams t.marketType)] ∧
    (∀ d : ClosureData, Effect.updatedClosure t.tradeId d ∉ processOneTrade env t) ∧
    (∀ store : List Trade, applyEffects store (processOneTrade env t) = store) ∧
    (∀ rest : List Trade, (t :: rest).flatMap (processOneTrade env) =
      processOneTrade env t ++ rest.flatMap (processOneTrade env)) := by
  have hneg : ¬closingAmount ≤ 0 := not_le.mpr hpos
  have htrace : processOneTrade env t =
      [Effect.placedOrder t.tradeId t.symbol t.side.invert closingAmount
        t.marketType (closeParams t.marketType)] := by
    simp [processOneTrade, huser, hkey, hsec, hfill, hneg, horder]
  refine ⟨htrace, ?_, ?_, ?_⟩
  · intro d
    rw [htrace]
    simp
  · intro store
    rw [htrace]
    have hstep : ∀ x : Trade,
        applyTradeStep (Effect.placedOrder t.tradeId t.symbol t.side.invert
          closingAmount t.marketType (closeParams t.marketType)) x = x :=
      fun x => rfl
    have hfun : applyTradeStep (Effect.placedOrder t.tradeId t.symbol
        t.side.invert closingAmount t.marketType (closeParams t.marketType)) =
        id := funext hstep
    simp [applyEffects, applyEffect, hfun]
  · intro rest
    simp

/-- Witness for C5: an insufficient-funds error while closing an open sell
position leaves only the order-attempt effect. -/
theorem tradeClosure_exchange_error_C5_witness :
    processOneTrade
        ⟨fun _ _ => Except.ok [], fun _ => some ⟨"u1", "key", "secret"⟩,
         fun _ _ _ _ _ _ _ _ => Except.error CcxtErrorKind.insufficientFunds,
         fun _ _ => Except.ok (), 5000⟩
        ⟨7, "u1", "ord1", 1000, "BTC/USDC", Side.sell, some 150, 20, some 3000,
         some 20, MarketType.spot, TradeStatus.OPEN, none, none, none, none,
         none, none⟩ =
      [Effect.placedOrder 7 "BTC/USDC" (Side.sell).invert 20 MarketType.spot
        (closeParams MarketType.spot)] :=
  (tradeClosure_exchange_error_C5 _ _ ⟨"u1", "key", "secret"⟩ 20
    CcxtErrorKind.insufficientFunds rfl rfl rfl rfl (by norm_num) rfl).1

/-! ### Claims C6, C7 and C9 -/

/-- C6: within one reconciliation pass the effect trace is the concatenation of
the per-position traces, so one position's outcome never changes what is done
for its siblings; and each per-position failure mode (missing owner, missing
credentials, missing or non-positive filled quantity) contributes an empty
trace for that position only. -/
theorem tradeClosure_batch_independence_C6 (env : ClosureEnv)
    (signalSide : Side) (symbol : String) (pre post : List Trade) (t : Trade)
    (hquery : env.findOpenTradesBySymbolAndSide symbol signalSide.invert =
      Except.ok (pre ++ t :: post)) :
    processSignal env signalSide symbol =
      Except.ok (pre.flatMap (processOneTrade env) ++ processOneTrade env t ++
        post.flatMap (processOneTrade env)) ∧
    (env.findById t.userId = none → processOneTrade env t = []) ∧
    (∀ user : User, env.findById t.userId = some user →
      (user.apiKey.isEmpty = true ∨ user.apiSecret.isEmpty = true) →
      processOneTrade env t = []) ∧
    (t.filled = none → processOneTrade env t = []) ∧
    (∀ a : ℚ, t.filled = some a → a ≤ 0 → processOneTrade env t = []) := by
  refine ⟨?_, ?_, ?_, ?_, ?_⟩
  · simp [processSignal, hquery]
  · intro h
    simp [processOneTrade, h]
  · intro user huser hempty
    rcases hempty with h | h <;> simp [processOneTrade, huser, h]
  · intro h
    cases henv : env.findById t.userId <;> simp [processOneTrade, henv, h]
  · intro a ha hle
    cases henv : env.findById t.userId <;> simp [processOneTrade, henv, ha, hle]

/-- Witness for C6: a batch of one position whose owner is unknown yields an
empty trace and the decomposed (empty) batch trace. -/
theorem tradeClosure_batch_independence_C6_witness :
    processSignal
        ⟨fun _ _ => Except.ok ([] ++
           ⟨7, "ghost", "ord1", 1000, "BTC/USDC", Side.sell, some 150, 20,
            some 3000, some 20, MarketType.spot, TradeStatus.OPEN, none, none,
            none, none, none, none⟩ :: []),
         fun _ => none, fun _ _ _ _ _ _ _ _ => Except.error CcxtErrorKind.other,
         fun _ _ => Except.ok (), 5000⟩ Side.buy "BTC/USDC" =
      Except.ok ([].flatMap (processOneTrade
          ⟨fun _ _ => Except.ok ([] ++
             ⟨7, "ghost", "ord1", 1000, "BTC/USDC", Side.sell, some 150, 20,
              some 3000, some 20, MarketType.spot, TradeStatus.OPEN, none, none,
              none, none, none, none⟩ :: []),
           fun _ => none, fun _ _ _ _ _ _ _ _ => Except.error CcxtErrorKind.other,
           fun _ _ => Except.ok (), 5000⟩) ++
        processOneTrade
          ⟨fun _ _ => Except.ok ([] ++
             ⟨7, "ghost", "ord1", 1000, "BTC/USDC", Side.sell, some 150, 20,
              some 3000, some 20, MarketType.spot, TradeStatus.OPEN, none, none,
              none, none, none, none⟩ :: []),
           fun _ => none, fun _ _ _ _ _ _ _ _ => Except.error CcxtErrorKind.other,
           fun _ _ => Except.ok (), 5000⟩
          ⟨7, "ghost", "ord1", 1000, "BTC/USDC", Side.sell, some 150, 20,
           some 3000, some 20, MarketType.spot, TradeStatus.OPEN, none, none,
           none, none, none, none⟩ ++
        [].flatMap (processOneTrade
          ⟨fun _ _ => Except.ok ([] ++
             ⟨7, "ghost", "ord1", 1000, "BTC/USDC", Side.sell, some 150, 20,
              some 3000, some 20, MarketType.spot, TradeStatus.OPEN, none, none,
              none, none, none, none⟩ :: []),
           fun _ => none, fun _ _ _ _ _ _ _ _ => Except.error CcxtErrorKind.other,
           fun _ _ => Except.ok (), 5000⟩)) :=
  (tradeClosure_batch_independence_C6 _ Side.buy "BTC/USDC" [] [] _ rfl).1

/-- C7: `processSignal` always resolves — for every environment it returns a
normal result — and when the open-positions query itself fails the pass is
aborted with an empty effect trace: no exchange order and no store update. -/
theorem tradeClosure_never_rejects_C7 (env : ClosureEnv) (signalSide : Side)
    (symbol : String) :
    (∃ effs : List Effect, processSignal env signalSide symbol = Except.ok effs) ∧
    (∀ e : String, env.findOpenTradesBySymbolAndSide symbol signalSide.invert =
        Except.error e →
      processSignal env signalSide symbol = Except.ok []) := by
  constructor
  · cases h : env.findOpenTradesBySymbolAndSide symbol signalSide.invert with
    | error e => exact ⟨[], by simp [processSignal, h]⟩
    | ok trades =>
      exact ⟨trades.flatMap (processOneTrade env), by simp [processSignal, h]⟩
  · intro e he
    simp [processSignal, he]

/-- Witness for C7: a failing repository query resolves to an empty trace. -/
theorem tradeClosure_never_rejects_C7_witness :
    processSignal
        ⟨fun _ _ => Except.error "db down", fun _ => none,
         fun _ _ _ _ _ _ _ _ => Except.error CcxtErrorKind.other,
         fun _ _ => Except.ok (), 0⟩ Side.buy "BTC/USDC" = Except.ok [] :=
  (tradeClosure_never_rejects_C7
    ⟨fun _ _ => Except.error "db down", fun _ => none,
     fun _ _ _ _ _ _ _ _ => Except.error CcxtErrorKind.other,
     fun _ _ => Except.ok (), 0⟩ Side.buy "BTC/USDC").2 "db down" rfl

lemma processOneTrade_effect_tradeId (env : ClosureEnv) (t : Trade) :
    ∀ eff ∈ processOneTrade env t, effectTradeId eff = t.tradeId := by
  intro eff heff
  simp only [processOneTrade] at heff
  repeat' split at heff
  all_goals
    first
      | exact absurd heff (List.not_mem_nil _)
      | (rcases List.mem_cons.mp heff with rfl | h2
         · rfl
         · first
             | exact absurd h2 (List.not_mem_nil _)
             | (rw [List.mem_singleton.mp h2]; rfl))

lemma side_invert_ne (s : Side) : s.invert ≠ s := by
  cases s <;> simp [Side.invert]

lemma filledPositive_iff (t : Trade) :
    filledPositive t = true ↔ ∃ f, t.filled = some f ∧ 0 < f := by
  cases h : t.filled <;> simp [filledPositive, h]

lemma mem_storeFindOpen {store : List Trade} {symbol : String} {side : Side}
    {t : Trade} :
    t ∈ storeFindOpen store symbol side ↔
      t ∈ store ∧ t.symbol = symbol ∧ t.side = side ∧
        t.tcState = TradeStatus.OPEN ∧ ∃ f, t.filled = some f ∧ 0 < f := by
  simp [storeFindOpen, List.mem_filter, filledPositive_iff, and_assoc]

lemma applyEffects_eq_map (effs : List Effect) (store : List Trade) :
    applyEffects store effs = store.map (applyTradeEffects effs) := by
  induction effs generalizing store with
  | nil =>
    have hid : applyTradeEffects ([] : List Effect) = id := funext fun t => rfl
    simp [applyEffects, hid]
  | cons e rest ih =>
    calc applyEffects store (e :: rest)
        = applyEffects (applyEffect store e) rest := rfl
      _ = (applyEffect store e).map (applyTradeEffects rest) := ih _
      _ = store.map (applyTradeEffects (e :: rest)) := by
          simp only [applyEffect, List.map_map]
          exact List.map_congr_left fun a _ => rfl

lemma applyTradeEffects_id {effs : List Effect} {t : Trade}
    (h : ∀ e ∈ effs, effectTradeId e ≠ t.tradeId) :
    applyTradeEffects effs t = t := by
  induction effs with
  | nil => rfl
  | cons e rest ih =>
    have h1 : applyTradeStep e t = t := by
      cases e with
      | placedOrder tradeId symbol side amount marketType params => rfl
      | updatedClosure tradeId d =>
        have hne : tradeId ≠ t.tradeId := h _ (List.mem_cons_self _ _)
        simp [applyTradeStep, Ne.symm hne]
    show applyTradeEffects rest (applyTradeStep e t) = t
    rw [h1]
    exact ih fun e' he' => h e' (List.mem_cons_of_mem _ he')

/-- C9: when the repository query is `TradeRepository`'s open-trades filter,
every recorded effect of a reconciliation pass refers to an OPEN position on
the signal's symbol with the opposite side (and positive filled quantity);
applying the trace is a per-position rewrite of the store under which (given
distinct ledger ids) every same-side position is left fully unchanged; and
with no opposing open position the trace is empty. -/
theorem tradeClosure_frame_C9 (env : ClosureEnv) (store : List Trade)
    (signalSide : Side) (symbol : String) (effs : List Effect)
    (hquery : env.findOpenTradesBySymbolAndSide symbol signalSide.invert =
      Except.ok (storeFindOpen store symbol signalSide.invert))
    (heffs : processSignal env signalSide symbol = Except.ok effs) :
    (∀ eff ∈ effs, ∃ t, t ∈ store ∧ t.tcState = TradeStatus.OPEN ∧
      t.symbol = symbol ∧ t.side = signalSide.invert ∧
      (∃ f, t.filled = some f ∧ 0 < f) ∧
      effectTradeId eff = t.tradeId) ∧
    applyEffects store effs = store.map (applyTradeEffects effs) ∧
    ((store.map Trade.tradeId).Nodup →
      ∀ t ∈ store, t.side = signalSide → applyTradeEffects effs t = t) ∧
    (storeFindOpen store symbol signalSide.invert = [] → effs = []) := by
  have heq : effs =
      (storeFindOpen store symbol signalSide.invert).flatMap
        (processOneTrade env) := by
    have := heffs
    simp only [processSignal, hquery] at this
    exact (Except.ok.injEq _ _).mp this.symm
  have hmem : ∀ eff ∈ effs, ∃ t, t ∈ store ∧ t.tcState = TradeStatus.OPEN ∧
      t.symbol = symbol ∧ t.side = signalSide.invert ∧
      (∃ f, t.filled = some f ∧ 0 < f) ∧
      effectTradeId eff = t.tradeId := by
    intro eff heff
    rw [heq] at heff
    obtain ⟨t, ht, hefft⟩ := List.mem_flatMap.mp heff
    obtain ⟨hts, hsym, hside, hopen, hfill⟩ := mem_storeFindOpen.mp ht
    exact ⟨t, hts, hopen, hsym, hside, hfill,
      processOneTrade_effect_tradeId env t eff hefft⟩
  refine ⟨hmem, applyEffects_eq_map effs store, ?_, ?_⟩
  · intro hnodup t ht hside
    apply applyTradeEffects_id
    intro e he
    obtain ⟨t', ht', _, _, hside', _, htid⟩ := hmem e he
    rw [htid]
    intro hcon
    have : t' = t := List.inj_on_of_nodup_map hnodup ht' ht hcon
    rw [this] at hside'
    rw [hside] at hside'
    exact side_invert_ne signalSide hside'.symm
  · intro hempty
    rw [heq, hempty]
    rfl

/-- Witness for C9: with a single OPEN buy position in the store, a buy signal
finds no opposing position, so the pass records no effect and the buy position
is untouched. -/
theorem tradeClosure_frame_C9_witness :
    applyTradeEffects [] ⟨7, "u1", "ord1", 1000, "BTC/USDC", Side.buy, some 150,
        20, some 3000, some 20, MarketType.spot, TradeStatus.OPEN, none, none,
        none, none, none, none⟩ =
      ⟨7, "u1", "ord1", 1000, "BTC/USDC", Side.buy, some 150, 20, some 3000,
        some 20, MarketType.spot, TradeStatus.OPEN, none, none, none, none,
        none, none⟩ := by
  have h := tradeClosure_frame_C9
    ⟨fun s sd => Except.ok (storeFindOpen
        [⟨7, "u1", "ord1", 1000, "BTC/USDC", Side.buy, some 150, 20, some 3000,
          some 20, MarketType.spot, TradeStatus.OPEN, none, none, none, none,
          none, none⟩] s sd),
     fun _ => none, fun _ _ _ _ _ _ _ _ => Except.error CcxtErrorKind.other,
     fun _ _ => Except.ok (), 0⟩
    [⟨7, "u1", "ord1", 1000, "BTC/USDC", Side.buy, some 150, 20, some 3000,
      some 20, MarketType.spot, TradeStatus.OPEN, none, none, none, none,
      none, none⟩]
    Side.buy "BTC/USDC" [] rfl rfl
  exact h.2.2.1 (by simp) _ (List.mem_singleton_self _) rfl

end TradeCompass
